import Mathlib

/-!
Shallow embedding of the pyfarm-models core mixins
(`pyfarm/models/core/mixins.py`) and of the agent software-capability
association, together with theorems settling the specification claims.

Conventions of the embedding:
* Python `None` becomes `Option.none`; a raising validator becomes a
  function into `Except String _` (the error branch stands for the raised
  `ValueError`).
* `datetime.now()` becomes an explicit `now : Nat` argument threaded by the
  caller; when a sequence of transitions is replayed, the clock ticks by one
  between consecutive transitions, so later transitions see later times.
* The work-state enumeration lives in the external `pyfarm.core.enums`
  package; here it is an inductive type with one constructor per state and
  an integer code per state (`DBWorkState._map` keys).  The concrete integer
  values of the external enum are opaque; only their distinctness matters.
* `logger.warning(...)` becomes a `Bool` component of the result: `true`
  exactly when the source logs the warning.
-/

namespace PyFarmModels

/-- Work states of the external `pyfarm.core.enums` `_WorkState`/`DBWorkState`
enumeration (an enumerated, closed set). -/
inductive WorkState where
  | paused
  | blocked
  | queued
  | assign
  | running
  | done
  | failed
deriving DecidableEq, Repr

/-- Integer code of each work state (the value stored in the database and
used as key of `DBWorkState._map`).  Concrete values of the external enum are
opaque; distinct codes per state is all that is relied upon. -/
def WorkState.code : WorkState → Int
  | .paused => 100
  | .blocked => 101
  | .queued => 102
  | .assign => 103
  | .running => 104
  | .done => 105
  | .failed => 106

/-- String form of each work state (`Values.str`, the value of
`DBWorkState._map[new_value]`). -/
def WorkState.str : WorkState → String
  | .paused => "paused"
  | .blocked => "blocked"
  | .queued => "queued"
  | .assign => "assign"
  | .running => "running"
  | .done => "done"
  | .failed => "failed"

/-- All members of the enumeration. -/
def allWorkStates : List WorkState :=
  [.paused, .blocked, .queued, .assign, .running, .done, .failed]

/-- The keys of `DBWorkState._map`: the set of valid raw values for the
`state` column. -/
def dbWorkStateCodes : List Int := allWorkStates.map WorkState.code

/-- A work item (Job or Task): the fields of the models that the mixins of
`pyfarm/models/core/mixins.py` read and write. -/
structure WorkItem where
  id : Nat
  priority : Int
  state : WorkState
  attempts : Option Int
  time_started : Option Nat
  time_finished : Option Nat
deriving DecidableEq, Repr

/-! ### ValidatePriorityMixin -/

/-- Default of `MIN_PRIORITY = read_env_int("PYFARM_QUEUE_MIN_PRIORITY", -1000)`. -/
def MIN_PRIORITY : Int := -1000

/-- Default of `MAX_PRIORITY = read_env_int("PYFARM_QUEUE_MAX_PRIORITY", 1000)`. -/
def MAX_PRIORITY : Int := 1000

/-- `ValidatePriorityMixin.validate_priority`: returns the value when
`MIN_PRIORITY <= value <= MAX_PRIORITY`, otherwise raises `ValueError`.
The configured bounds are passed explicitly (the source reads them from the
environment once, at class definition time). -/
def validate_priority (minPriority maxPriority value : Int) : Except String Int :=
  if minPriority ≤ value ∧ value ≤ maxPriority then
    .ok value
  else
    .error "priority must be between MIN_PRIORITY and MAX_PRIORITY"

/-- `ValidatePriorityMixin.validate_attempts`: the source tests
`value > 0 or value is None`.  Under the source's Python 2 semantics
`None > 0` is `False`, so the test succeeds exactly when the value is
`None` or a number greater than zero. -/
def validate_attempts (value : Option Int) : Except String (Option Int) :=
  match value with
  | none => .ok none
  | some n => if n > 0 then .ok (some n) else .error "attempts cannot be less than zero"

/-! ### ValidateWorkStateMixin -/

/-- `ValidateWorkStateMixin.validate_state`: raises `ValueError` when the
assigned raw value is not a key of `DBWorkState._map`, otherwise returns it. -/
def validate_state (value : Int) : Except String Int :=
  if value ∈ dbWorkStateCodes then
    .ok value
  else
    .error "not a valid value for state"

/-- An entity carrying a raw `state` column guarded by
`ValidateWorkStateMixin` (the ORM runs the validator before the attribute is
mutated, so a raising validator leaves the entity untouched). -/
structure StateEntity where
  state : Int
deriving DecidableEq, Repr

/-- Assignment to the `state` field through the validator: on success the
field holds the new value and no error is reported; on failure the entity is
returned unchanged together with the error. -/
def assign_state (entity : StateEntity) (value : Int) : StateEntity × Option String :=
  match validate_state value with
  | .ok v => ({ entity with state := v }, none)
  | .error msg => (entity, some msg)

/-! ### WorkStateChangedMixin -/

/-- `WorkStateChangedMixin.stateChangedEvent(target, new_value, old_value,
initiator)`: updates the datetime fields and the attempt counter of `target`
according to `new_value`.  The source never reads `old_value` (nor
`initiator`, omitted here).  The `Bool` of the result is `true` exactly when
the source logs the "has not been started yet" warning. -/
def stateChangedEvent (now : Nat) (target : WorkItem)
    (new_value old_value : WorkState) : WorkItem × Bool :=
  if new_value = .running then
    ({ target with
        time_started := some now
        time_finished := none
        attempts := match target.attempts with
          | none => some 1
          | some n => some (n + 1) }, false)
  else if new_value = .done ∨ new_value = .failed then
    ({ target with time_finished := some now }, target.time_started.isNone)
  else
    (target, false)

/-- Assignment of a new value to the `state` field of a work item: the ORM
fires `stateChangedEvent` with the current field value as `old_value`, then
stores the new value in the field. -/
def applyState (now : Nat) (item : WorkItem) (new_value : WorkState) : WorkItem × Bool :=
  let fired := stateChangedEvent now item new_value item.state
  ({ fired.1 with state := new_value }, fired.2)

/-- Replay of a sequence of `state` assignments; the clock ticks between
consecutive assignments. -/
def applySeq : Nat → WorkItem → List WorkState → WorkItem
  | _, item, [] => item
  | now, item, s :: rest => applySeq (now + 1) (applyState now item s).1 rest

/-- A work item as freshly created: queued, no attempts, both timestamps
unset. -/
def initWorkItem : WorkItem :=
  { id := 0, priority := 0, state := .queued,
    attempts := none, time_started := none, time_finished := none }

/-! ### UtilityMixins -/

/-- A value held by a column of a model: integers, strings, enum members
(instances of the external `Values` type, carrying a `.str` form) or NULL. -/
inductive ColumnValue where
  | int (n : Int)
  | str (s : String)
  | enum (w : WorkState)
  | null
deriving DecidableEq, Repr

/-- Whether a column value is a raw enum member (`isinstance(value, Values)`
in the source). -/
def ColumnValue.isEnum : ColumnValue → Bool
  | .enum _ => true
  | _ => false

/-- An entity as `UtilityMixins.to_dict` sees it: the persisted columns of
`self.__table__.c` (name and current value, names unique in a table) and the
optional per-model `serialize_column` hook. -/
structure Entity where
  columns : List (String × ColumnValue)
  serialize_column : Option (ColumnValue → ColumnValue)

/-- The first step of `to_dict` on a column value: apply the model's
`serialize_column` hook when the model has one. -/
def serializedValue (e : Entity) (v : ColumnValue) : ColumnValue :=
  match e.serialize_column with
  | some f => f v
  | none => v

/-- The value `to_dict` stores for a column: the serialized value, with any
`Values` instance replaced by its string form (`value.str`). -/
def renderedValue (e : Entity) (v : ColumnValue) : ColumnValue :=
  match serializedValue e v with
  | .enum w => .str w.str
  | other => other

/-- `UtilityMixins.to_dict`: one entry per column of the table, holding the
rendered current value of the column. -/
def to_dict (e : Entity) : List (String × ColumnValue) :=
  e.columns.map (fun c => (c.1, renderedValue e c.2))

/-! ### Agent software capabilities -/

/-- Modelled from the spec: the Agent/Software association models
(`pyfarm/models/agent.py`, `pyfarm/models/software.py`) are not part of the
sources at hand, only their test is; the spec states that the pair
(software, version) is unique per owning agent and that attaching a
duplicate pair fails with `DuplicateCapability`.  An agent is reduced to its
identity and the (name, version) pairs of the Software rows it holds. -/
structure AgentCaps where
  agent_id : Nat
  software : List (String × String)
deriving DecidableEq, Repr

/-- Modelled from the spec: `attachSoftware(agent, software, version)` fails
with `DuplicateCapability` when the agent already holds an association with
the identical (software, version) pair, and otherwise inserts the
association. -/
def attachSoftware (a : AgentCaps) (name version : String) : Except String AgentCaps :=
  if (name, version) ∈ a.software then
    .error "DuplicateCapability"
  else
    .ok { a with software := (name, version) :: a.software }

/-! ### Concrete inputs used by the witnesses -/

/-- A work item mid-run: RUNNING after two attempts, started at tick 4. -/
def midRunItem : WorkItem := { initWorkItem with state := .running, attempts := some 2, time_started := some 4 }

/-- A work item on its first run: RUNNING with one attempt, started at tick 5. -/
def firstRunItem : WorkItem := { initWorkItem with state := .running, attempts := some 1, time_started := some 5 }

/-- A two-column entity with no `serialize_column` hook, one enum column. -/
def sampleEntity : Entity :=
  { columns := [("id", .int 1), ("state", .enum .running)], serialize_column := none }

/-- An agent with no software capabilities. -/
def agentA : AgentCaps := { agent_id := 1, software := [] }

/-- A second agent with no software capabilities. -/
def agentB : AgentCaps := { agent_id := 2, software := [] }

/-- `agentA` after attaching software ("foo", "1.0.0"). -/
def agentA1 : AgentCaps := { agent_id := 1, software := [("foo", "1.0.0")] }

end PyFarmModels

namespace PyFarmModels

/-! ## Claims -/

/-- C1: for every work item and every prior state, a transition into RUNNING
sets `time_started` to the current time, clears `time_finished` to unset and
increments `attempts`: unset becomes 1, otherwise the old value plus 1. -/
theorem running_transition_effects (now : Nat) (item : WorkItem) (old : WorkState) :
    (stateChangedEvent now item .running old).1.time_started = some now ∧
    (stateChangedEvent now item .running old).1.time_finished = none ∧
    (item.attempts = none → (stateChangedEvent now item .running old).1.attempts = some 1) ∧
    (∀ n : Int, item.attempts = some n →
      (stateChangedEvent now item .running old).1.attempts = some (n + 1)) := by
  refine ⟨?_, ?_, ?_, ?_⟩
  · simp [stateChangedEvent]
  · simp [stateChangedEvent]
  · intro h
    simp [stateChangedEvent, h]
  · intro n h
    simp [stateChangedEvent, h]

/-- Witness for C1: a first RUNNING transition of a fresh item initializes
`attempts` to 1; a RUNNING transition of an item with `attempts = 3` moves it
to 4. -/
theorem running_transition_effects_witness :
    (initWorkItem.attempts = none ∧
      (stateChangedEvent 7 initWorkItem .running .queued).1.attempts = some 1) ∧
    (stateChangedEvent 7 { initWorkItem with attempts := some 3 } .running .queued).1.attempts
      = some 4 :=
  ⟨⟨rfl, (running_transition_effects 7 initWorkItem .queued).2.2.1 rfl⟩,
    (running_transition_effects 7 { initWorkItem with attempts := some 3 } .queued).2.2.2 3 rfl⟩

/-- C2: a transition into DONE or FAILED sets `time_finished` to the current
time; the warning fires exactly when `time_started` was unset, and the
transition succeeds either way (the new `time_finished` is set regardless). -/
theorem done_failed_transition_time_finished (now : Nat) (item : WorkItem)
    (old new : WorkState) (h : new = .done ∨ new = .failed) :
    (stateChangedEvent now item new old).1.time_finished = some now ∧
    (stateChangedEvent now item new old).2 = item.time_started.isNone := by
  rcases h with rfl | rfl <;> simp [stateChangedEvent]

/-- Witness for C2: a DONE transition of a fresh (never started) item still
sets `time_finished` and raises the warning flag. -/
theorem done_failed_transition_time_finished_witness :
    ((WorkState.done = WorkState.done ∨ WorkState.done = WorkState.failed) ∧
      (stateChangedEvent 3 initWorkItem .done .queued).1.time_finished = some 3 ∧
      (stateChangedEvent 3 initWorkItem .done .queued).2 = initWorkItem.time_started.isNone) :=
  ⟨Or.inl rfl,
    done_failed_transition_time_finished 3 initWorkItem .queued .done (Or.inl rfl)⟩

/-- C10: a transition into DONE or FAILED changes nothing but
`time_finished`: the whole resulting record equals the old one with only
`time_finished` replaced. -/
theorem done_failed_frame_effect (now : Nat) (item : WorkItem)
    (old new : WorkState) (h : new = .done ∨ new = .failed) :
    (stateChangedEvent now item new old).1 = { item with time_finished := some now } := by
  rcases h with rfl | rfl <;> simp [stateChangedEvent]

/-- Witness for C10: a FAILED transition of a running item leaves
`time_started` and `attempts` untouched. -/
theorem done_failed_frame_effect_witness :
    ((WorkState.failed = WorkState.done ∨ WorkState.failed = WorkState.failed) ∧
      (stateChangedEvent 9 midRunItem .failed .running).1 =
        { midRunItem with time_finished := some 9 }) :=
  ⟨Or.inr rfl, done_failed_frame_effect 9 midRunItem .running .failed (Or.inr rfl)⟩

/-- C7 counterexample: assigning RUNNING to an item whose state already is
RUNNING (new value equal to old value) does produce side effects: attempts
is incremented and `time_started` is overwritten. -/
theorem same_state_assignment_counterexample :
    (applyState 9 firstRunItem .running).1.attempts ≠ some 1 ∧
    (applyState 9 firstRunItem .running).1.time_started ≠ some 5 := by
  decide

/-- C7 amended: the transition handler computes its side effects from the new
state value alone; the old value it is passed is ignored, so an assignment
whose new value equals the current state produces exactly the side effects of
that state's transition. -/
theorem stateChangedEvent_ignores_old_value (now : Nat) (target : WorkItem)
    (new o1 o2 : WorkState) :
    stateChangedEvent now target new o1 = stateChangedEvent now target new o2 := rfl

/-- C4: `validate_priority` succeeds and returns the value exactly when it
lies between the configured bounds (inclusive); both boundary values succeed
and the values just outside the bounds fail. -/
theorem priority_validation_bounds (minP maxP : Int) (hminmax : minP ≤ maxP) :
    (∀ v : Int, validate_priority minP maxP v = .ok v ↔ minP ≤ v ∧ v ≤ maxP) ∧
    (∀ v : Int, ¬(minP ≤ v ∧ v ≤ maxP) → (validate_priority minP maxP v).isOk = false) ∧
    validate_priority minP maxP minP = .ok minP ∧
    validate_priority minP maxP maxP = .ok maxP ∧
    (validate_priority minP maxP (minP - 1)).isOk = false ∧
    (validate_priority minP maxP (maxP + 1)).isOk = false := by
  have hok : ∀ v : Int, validate_priority minP maxP v = .ok v ↔ minP ≤ v ∧ v ≤ maxP := by
    intro v
    by_cases hb : minP ≤ v ∧ v ≤ maxP <;> simp [validate_priority, hb]
  have hfail : ∀ v : Int,
      ¬(minP ≤ v ∧ v ≤ maxP) → (validate_priority minP maxP v).isOk = false := by
    intro v hv
    simp [validate_priority, hv, Except.isOk, Except.toBool]
  refine ⟨hok, hfail, ?_, ?_, ?_, ?_⟩
  · exact (hok minP).mpr ⟨le_refl _, hminmax⟩
  · exact (hok maxP).mpr ⟨hminmax, le_refl _⟩
  · exact hfail _ (by omega)
  · exact hfail _ (by omega)

/-- Witness for C4 at the default configuration `MIN_PRIORITY = -1000`,
`MAX_PRIORITY = 1000`: value 1000 is accepted, value 1001 rejected. -/
theorem priority_validation_bounds_witness :
    MIN_PRIORITY ≤ MAX_PRIORITY ∧
    validate_priority MIN_PRIORITY MAX_PRIORITY MAX_PRIORITY = .ok MAX_PRIORITY ∧
    (validate_priority MIN_PRIORITY MAX_PRIORITY (MAX_PRIORITY + 1)).isOk = false :=
  ⟨by decide,
    (priority_validation_bounds MIN_PRIORITY MAX_PRIORITY (by decide)).2.2.2.1,
    (priority_validation_bounds MIN_PRIORITY MAX_PRIORITY (by decide)).2.2.2.2.2⟩

/-- C5: `validate_attempts` succeeds and returns the value exactly when it is
unset or positive; an unset value succeeds, zero and every negative value
fail. -/
theorem attempts_validation_rule :
    (∀ v : Option Int, validate_attempts v = .ok v ↔ v = none ∨ ∃ n : Int, v = some n ∧ 0 < n) ∧
    validate_attempts none = .ok none ∧
    (validate_attempts (some 0)).isOk = false ∧
    (∀ n : Int, n < 0 → (validate_attempts (some n)).isOk = false) := by
  refine ⟨fun v => ?_, rfl, rfl, fun n hn => ?_⟩
  · match v with
    | none => simp [validate_attempts]
    | some n => by_cases hn : n > 0 <;> simp [validate_attempts, hn]
  · have hn' : ¬ n > 0 := by omega
    simp [validate_attempts, hn', Except.isOk, Except.toBool]

/-- Witness for C5: `-3` is rejected while an unset value is accepted. -/
theorem attempts_validation_rule_witness :
    ((-3 : Int) < 0 ∧ (validate_attempts (some (-3))).isOk = false) ∧
    validate_attempts none = .ok none :=
  ⟨⟨by decide, attempts_validation_rule.2.2.2 (-3) (by decide)⟩,
    attempts_validation_rule.2.1⟩

/-- C3: assigning a raw value to the `state` field succeeds exactly when the
value is a key of the work-state enumeration map; a member value is stored,
a non-member value is rejected with an error and the entity keeps its prior
state. -/
theorem state_assignment_validation (e : StateEntity) (v : Int) :
    ((assign_state e v).2 = none ↔ v ∈ dbWorkStateCodes) ∧
    (v ∈ dbWorkStateCodes → assign_state e v = ({ e with state := v }, none)) ∧
    (v ∉ dbWorkStateCodes →
      (assign_state e v).1 = e ∧ (assign_state e v).2.isSome = true) := by
  by_cases hv : v ∈ dbWorkStateCodes <;>
    simp [assign_state, validate_state, hv]

/-- Witness for C3: the RUNNING code is accepted and stored; the raw value 7
is not a member and leaves the entity untouched. -/
theorem state_assignment_validation_witness :
    (WorkState.running.code ∈ dbWorkStateCodes ∧
      assign_state { state := WorkState.queued.code } WorkState.running.code =
        ({ state := WorkState.running.code }, none)) ∧
    ((7 : Int) ∉ dbWorkStateCodes ∧
      (assign_state { state := WorkState.queued.code } 7).1 = { state := WorkState.queued.code } ∧
      (assign_state { state := WorkState.queued.code } 7).2.isSome = true) :=
  ⟨⟨by decide,
      (state_assignment_validation { state := WorkState.queued.code }
        WorkState.running.code).2.1 (by decide)⟩,
    ⟨by decide,
      (state_assignment_validation { state := WorkState.queued.code } 7).2.2 (by decide)⟩⟩

/-- C8: `to_dict` keeps exactly the persisted column names, each exactly once
(duplicate-free table keys), no entry of the result is a raw enum member, and
an enum-valued column is rendered as its string form. -/
theorem to_dict_fields (e : Entity) (h : (e.columns.map Prod.fst).Nodup) :
    (to_dict e).map Prod.fst = e.columns.map Prod.fst ∧
    (∀ name, name ∈ e.columns.map Prod.fst → ((to_dict e).map Prod.fst).count name = 1) ∧
    (∀ p ∈ to_dict e, p.2.isEnum = false) ∧
    (∀ name w, e.serialize_column = none → (name, ColumnValue.enum w) ∈ e.columns →
      (name, ColumnValue.str w.str) ∈ to_dict e) := by
  have hkeys : (to_dict e).map Prod.fst = e.columns.map Prod.fst := by
    simp only [to_dict, List.map_map]
    rfl
  refine ⟨hkeys, fun name hmem => ?_, fun p hp => ?_, fun name w hser hmem => ?_⟩
  · rw [hkeys]
    exact List.count_eq_one_of_mem h hmem
  · obtain ⟨c, hc, rfl⟩ := List.mem_map.mp hp
    simp only [renderedValue]
    cases hsv : serializedValue e c.2 <;> simp [ColumnValue.isEnum]
  · refine List.mem_map.mpr ⟨(name, ColumnValue.enum w), hmem, ?_⟩
    simp [renderedValue, serializedValue, hser]

/-- Witness for C8: a two-column entity, one enum column, renders the enum as
its string form and keeps both column names once each. -/
theorem to_dict_fields_witness :
    (sampleEntity.columns.map Prod.fst).Nodup ∧
    ((to_dict sampleEntity).map Prod.fst = sampleEntity.columns.map Prod.fst ∧
      (∀ name, name ∈ sampleEntity.columns.map Prod.fst →
        ((to_dict sampleEntity).map Prod.fst).count name = 1) ∧
      (∀ p ∈ to_dict sampleEntity, p.2.isEnum = false) ∧
      (∀ name w, sampleEntity.serialize_column = none →
        (name, ColumnValue.enum w) ∈ sampleEntity.columns →
        (name, ColumnValue.str w.str) ∈ to_dict sampleEntity)) :=
  ⟨by decide, to_dict_fields sampleEntity (by decide)⟩

/-- C9: attaching a (software, version) pair the agent already holds fails
with `DuplicateCapability`; a successful attach keeps the agent's software
rows duplicate-free, and immediately re-attaching the same pair then fails;
attaching a pair neither of two agents holds succeeds for both. -/
theorem software_capability_uniqueness (a b : AgentCaps) (name version : String) :
    ((name, version) ∈ a.software →
      attachSoftware a name version = .error "DuplicateCapability") ∧
    (∀ a', attachSoftware a name version = .ok a' →
      (a.software.Nodup → a'.software.Nodup) ∧
      attachSoftware a' name version = .error "DuplicateCapability") ∧
    ((name, version) ∉ a.software → (name, version) ∉ b.software →
      (attachSoftware a name version).isOk = true ∧
      (attachSoftware b name version).isOk = true) := by
  refine ⟨fun hmem => ?_, fun a' hok => ?_, fun ha hb => ?_⟩
  · simp [attachSoftware, hmem]
  · by_cases hmem : (name, version) ∈ a.software
    · simp [attachSoftware, hmem] at hok
    · simp only [attachSoftware, if_neg hmem, Except.ok.injEq] at hok
      subst hok
      refine ⟨fun hnd => List.nodup_cons.mpr ⟨hmem, hnd⟩, ?_⟩
      simp [attachSoftware]
  · constructor <;> simp [attachSoftware, ha, hb, Except.isOk, Except.toBool]

/-- Witness for C9: attaching ("foo", "1.0.0") to two fresh agents succeeds
for both; re-attaching it to the first agent afterwards fails. -/
theorem software_capability_uniqueness_witness :
    (("foo", "1.0.0") ∉ agentA.software ∧ ("foo", "1.0.0") ∉ agentB.software ∧
      (attachSoftware agentA "foo" "1.0.0").isOk = true ∧
      (attachSoftware agentB "foo" "1.0.0").isOk = true) ∧
    (attachSoftware agentA "foo" "1.0.0" = .ok agentA1 ∧
      (agentA.software.Nodup → agentA1.software.Nodup) ∧
      attachSoftware agentA1 "foo" "1.0.0" = .error "DuplicateCapability") := by
  refine ⟨⟨by decide, by decide, ?_, ?_⟩, ⟨by rfl, ?_, ?_⟩⟩
  · exact ((software_capability_uniqueness agentA agentB "foo" "1.0.0").2.2
      (by decide) (by decide)).1
  · exact ((software_capability_uniqueness agentA agentB "foo" "1.0.0").2.2
      (by decide) (by decide)).2
  · exact ((software_capability_uniqueness agentA agentB "foo" "1.0.0").2.1
      agentA1 (by rfl)).1
  · exact ((software_capability_uniqueness agentA agentB "foo" "1.0.0").2.1
      agentA1 (by rfl)).2

/-- One assignment moves `time_started` to the clock on RUNNING and leaves it
alone on every other new value. -/
theorem applyState_time_started (now : Nat) (item : WorkItem) (s : WorkState) :
    (applyState now item s).1.time_started =
      if s = .running then some now else item.time_started := by
  cases s <;> simp [applyState, stateChangedEvent]

/-- An assignment of a value other than RUNNING, DONE and FAILED leaves
`time_finished` alone. -/
theorem applyState_time_finished_other (now : Nat) (item : WorkItem) (s : WorkState)
    (h1 : s ≠ .running) (h2 : s ≠ .done) (h3 : s ≠ .failed) :
    (applyState now item s).1.time_finished = item.time_finished := by
  cases s <;> simp_all [applyState, stateChangedEvent]

/-- No assignment ever clears `time_started`: once set it stays set through
any replayed sequence. -/
theorem applySeq_started_persists (seq : List WorkState) :
    ∀ (now : Nat) (item : WorkItem), item.time_started.isSome →
      (applySeq now item seq).time_started.isSome := by
  induction seq with
  | nil => exact fun _ _ h => h
  | cons s rest ih =>
      intro now item h
      apply ih
      rw [applyState_time_started]
      split
      · rfl
      · exact h

/-- A sequence containing RUNNING leaves `time_started` set. -/
theorem applySeq_started_of_mem (seq : List WorkState) :
    ∀ (now : Nat) (item : WorkItem), WorkState.running ∈ seq →
      (applySeq now item seq).time_started.isSome := by
  induction seq with
  | nil => intro _ _ h; cases h
  | cons s rest ih =>
      intro now item hmem
      rcases List.mem_cons.mp hmem with h | h
      · have hs : (applyState now item s).1.time_started.isSome := by
          rw [applyState_time_started, if_pos h.symm]
          rfl
        exact applySeq_started_persists rest (now + 1) _ hs
      · exact ih _ _ h

/-- A sequence free of RUNNING, DONE and FAILED leaves `time_finished`
alone. -/
theorem applySeq_finished_of_none (seq : List WorkState) :
    ∀ (now : Nat) (item : WorkItem), WorkState.running ∉ seq →
      WorkState.done ∉ seq → WorkState.failed ∉ seq →
      (applySeq now item seq).time_finished = item.time_finished := by
  induction seq with
  | nil => intro _ _ _ _ _; rfl
  | cons s rest ih =>
      intro now item hr hd hf
      simp only [List.mem_cons, not_or] at hr hd hf
      show (applySeq (now + 1) (applyState now item s).1 rest).time_finished =
        item.time_finished
      rw [ih _ _ hr.2 hd.2 hf.2]
      exact applyState_time_finished_other now item s
        (fun h => hr.1 h.symm) (fun h => hd.1 h.symm) (fun h => hf.1 h.symm)

/-- C6 counterexample: replaying the single transition DONE from a fresh item
(both timestamps unset) sets `time_finished` while `time_started` stays
unset, so the invariant as claimed does not hold for every sequence. -/
theorem timestamps_invariant_counterexample :
    ¬ ((applySeq 0 initWorkItem [WorkState.done]).time_finished.isSome →
      (applySeq 0 initWorkItem [WorkState.done]).time_started.isSome) := by
  decide

/-- C6 amended: for every sequence of transitions replayed from a fresh item
in which every DONE or FAILED transition is preceded by an earlier RUNNING
transition, `time_finished` is set at the end only if `time_started` is set;
without that proviso the code sets `time_finished` with `time_started` unset
(the warned inconsistent-history case). -/
theorem timestamps_invariant_amended (seq : List WorkState)
    (H : ∀ i : Fin seq.length, (seq.get i = .done ∨ seq.get i = .failed) →
      ∃ j : Fin seq.length, j.val < i.val ∧ seq.get j = .running) (now : Nat) :
    (applySeq now initWorkItem seq).time_finished.isSome →
    (applySeq now initWorkItem seq).time_started.isSome := by
  intro hfin
  by_cases hr : WorkState.running ∈ seq
  · exact applySeq_started_of_mem seq now initWorkItem hr
  · exfalso
    have hnodf : ∀ s, (s = WorkState.done ∨ s = WorkState.failed) → s ∉ seq := by
      rintro s hs hmem
      obtain ⟨i, hi⟩ := List.mem_iff_get.mp hmem
      obtain ⟨j, _, hj⟩ := H i (by rw [hi]; exact hs)
      exact hr (hj ▸ List.get_mem seq j.1 j.2)
    have hfe := applySeq_finished_of_none seq now initWorkItem hr
      (hnodf _ (Or.inl rfl)) (hnodf _ (Or.inr rfl))
    rw [hfe] at hfin
    simp [initWorkItem] at hfin

/-- Witness for C6 (amended): in the sequence RUNNING, DONE every DONE is
preceded by RUNNING, and the final item has `time_started` set whenever
`time_finished` is. -/
theorem timestamps_invariant_amended_witness :
    (∀ i : Fin ([WorkState.running, WorkState.done] : List WorkState).length,
      (([WorkState.running, WorkState.done] : List WorkState).get i = .done ∨
        ([WorkState.running, WorkState.done] : List WorkState).get i = .failed) →
      ∃ j : Fin ([WorkState.running, WorkState.done] : List WorkState).length,
        j.val < i.val ∧ ([WorkState.running, WorkState.done] : List WorkState).get j = .running) ∧
    ((applySeq 0 initWorkItem [WorkState.running, WorkState.done]).time_finished.isSome →
      (applySeq 0 initWorkItem [WorkState.running, WorkState.done]).time_started.isSome) :=
  ⟨by decide, timestamps_invariant_amended [WorkState.running, WorkState.done] (by decide) 0⟩

end PyFarmModels
